import Mathlib

/-!
Shallow embedding of the kuina repository's fixed-capacity containers
(src/stack_dequeue.rs and src/stack_vec.rs) and proofs about the claims of
the specification.

Modelling conventions:
* The Rust storage `[MaybeUninit<T>; N]` is a total function `Nat → Option T`;
  `none` at an index models an uninitialized (or out-of-bounds) slot, `some v`
  a slot whose last written value is `v`.  Reading a slot the tracked window
  does not cover yields whatever was last written there (a stale value) or
  `none` (never written) — exactly the information an `assume_init_read` of
  that slot would expose.
* A Rust operation that panics/aborts (a failed `assert!` or an array
  bounds-check) is modelled as returning `none`: no successor state exists,
  so no mutation is observable.
* `&mut T` return values are irrelevant to the properties below and the
  `*_mut` variants are modelled by the same state transformers as their
  by-value wrappers (the Rust wrappers literally call the `_mut` versions).
-/

/-- State of `StackDequeue<T, N>` (src/stack_dequeue.rs lines 8-12): physical
storage, index of the logical front, and count of logically valid elements. -/
structure StackDequeue (T : Type) (N : Nat) where
  data : Nat → Option T
  start : Nat
  size : Nat

namespace StackDequeue

variable {T : Type} {N : Nat}

/-- `StackDequeue::new` — empty deque, all slots uninitialized. -/
def new : StackDequeue T N :=
  { data := fun _ => none, start := 0, size := 0 }

/-- `StackDequeue::len`. -/
def len (d : StackDequeue T N) : Nat :=
  d.size

/-- `StackDequeue::get_idx` (lines 38-41): `start + index`, with a single
conditional subtraction of `N`. -/
def get_idx (d : StackDequeue T N) (index : Nat) : Nat :=
  let index := d.start + index
  if index < N then index else index - N

/-- `StackDequeue::get` (lines 52-54).  The source reads
`self.data.get_unchecked(index)` — the PHYSICAL slot `index`, without routing
through `get_idx`. -/
def get (d : StackDequeue T N) (index : Nat) : Option T :=
  if index < d.size then d.data index else none

/-- `StackDequeue::get_mut` (lines 69-71) — same physical read as `get`. -/
def get_mut (d : StackDequeue T N) (index : Nat) : Option T :=
  if index < d.size then d.data index else none

/-- `StackDequeue::front` (line 82): `get(0)`. -/
def front (d : StackDequeue T N) : Option T :=
  d.get 0

/-- Rust `usize::wrapping_sub(1)` on a value below `2 ^ 64`. -/
def usize_wrapping_sub_one (n : Nat) : Nat :=
  (n + (2 ^ 64 - 1)) % 2 ^ 64

/-- `StackDequeue::back` (line 110): `get(size.wrapping_sub(1))`. -/
def back (d : StackDequeue T N) : Option T :=
  d.get (usize_wrapping_sub_one d.size)

/-- `StackDequeue::push_back_mut` (lines 149-154) and its wrapper
`push_back` (line 136): `assert!(size < N)`, write at `get_idx(size)`,
increment `size`.  A failed assert aborts before any mutation: result `none`. -/
def push_back (d : StackDequeue T N) (v : T) : Option (StackDequeue T N) :=
  if d.size < N then
    some { d with
      data := fun j => if j = d.get_idx d.size then some v else d.data j,
      size := d.size + 1 }
  else none

/-- `StackDequeue::push_front_mut` (lines 192-198) and its wrapper
`push_front` (line 179).  The source saves `start`, sets
`self.start = start.checked_sub(1).unwrap_or(N - 1)`, and then writes the
value at the SAVED (old) `start`, not at the new one. -/
def push_front (d : StackDequeue T N) (v : T) : Option (StackDequeue T N) :=
  if d.size < N then
    some { d with
      data := fun j => if j = d.start then some v else d.data j,
      start := if d.start = 0 then N - 1 else d.start - 1,
      size := d.size + 1 }
  else none

/-- `StackDequeue::pop_front` (lines 165-170): `checked_sub` returns `None`
on an empty deque before any field is written; otherwise decrement `size`,
advance `start` by `get_idx(1)` and read the slot at the old `start`.
The first component is the Rust return value; its inner `Option` is `none`
when the read hit an uninitialized slot. -/
def pop_front (d : StackDequeue T N) : Option (Option T) × StackDequeue T N :=
  if d.size = 0 then (none, d)
  else
    (some (d.data d.start),
     { d with size := d.size - 1, start := d.get_idx 1 })

/-- `StackDequeue::pop_back` (lines 208-212): decrement `size`, read the slot
at `get_idx(new size)`. -/
def pop_back (d : StackDequeue T N) : Option (Option T) × StackDequeue T N :=
  if d.size = 0 then (none, d)
  else
    (some (d.data (d.get_idx (d.size - 1))),
     { d with size := d.size - 1 })

/-- Contiguous read of `len` physical slots at position `p`, as produced by
`slice::from_raw_parts(ptr, len)`; indices at or past `N` model reads past
the end of the array. -/
def slice_read (d : StackDequeue T N) (p len : Nat) : List (Option T) :=
  (List.range len).map (fun i => d.data (p + i))

/-- `StackDequeue::as_slices` (lines 231-242) and the identically indexed
`as_mut_slices` (lines 263-274): run A starts at `start` with length
`(N - start).min(size)`; run B starts at `get_idx(start + len1)` — note the
argument `start + len1`, to which `get_idx` adds `start` again — with length
`size - len1`. -/
def as_slices (d : StackDequeue T N) : List (Option T) × List (Option T) :=
  let len1 := min (N - d.start) d.size
  let len2 := d.size - len1
  (d.slice_read d.start len1, d.slice_read (d.get_idx (d.start + len1)) len2)

/-- Logical front-to-back sequence of the deque, written from the spec:
"Logical element i (0-indexed from front) maps to physical slot
`(start + i) mod N`" — the spec-side definition the source operations are
compared against. -/
def logical_list (d : StackDequeue T N) : List (Option T) :=
  (List.range d.size).map (fun i => d.data (d.get_idx i))

/-- PartialEq of a deque against a plain sequence (lines 471-493): lengths
must match, then the right-hand side is split at run A's length and both
halves are compared elementwise.  An uninitialized read (`none`) compares
unequal to every proper element. -/
def eq_seq [DecidableEq T] (d : StackDequeue T N) (other : List T) : Bool :=
  if d.size ≠ other.length then false
  else
    let s := d.as_slices
    let oa := (other.take s.1.length).map some
    let ob := (other.drop s.1.length).map some
    s.1 == oa && s.2 == ob

/-- Elements whose destructor runs when a `StackDequeue` value is dropped.
The source declares NO `Drop` impl for `StackDequeue`, and the drop glue of
`[MaybeUninit<T>; N]` runs no element destructors, so dropping the container
destroys no element. -/
def dropped_elements (_d : StackDequeue T N) : List T :=
  []

end StackDequeue

/-- One user-level mutation of a `StackDequeue`. -/
inductive DequeOp (T : Type) where
  | push_back (v : T)
  | push_front (v : T)
  | pop_front
  | pop_back

/-- Whether the operation is a push. -/
def DequeOp.is_push {T : Type} : DequeOp T → Bool
  | .push_back _ => true
  | .push_front _ => true
  | .pop_front => false
  | .pop_back => false

/-- Number of push operations in a sequence. -/
def push_count {T : Type} (ops : List (DequeOp T)) : Nat :=
  ops.countP (fun op => op.is_push)

/-- Number of pop operations in a sequence. -/
def pop_op_count {T : Type} (ops : List (DequeOp T)) : Nat :=
  ops.countP (fun op => !op.is_push)

namespace StackDequeue

variable {T : Type} {N : Nat}

/-- Apply one operation.  A push beyond capacity aborts (`none`); the `Nat`
is `1` when a pop returned a value (the `checked_sub` succeeded) and `0`
otherwise. -/
def run_op (d : StackDequeue T N) : DequeOp T → Option (StackDequeue T N × Nat)
  | .push_back v => (d.push_back v).map (fun d1 => (d1, 0))
  | .push_front v => (d.push_front v).map (fun d1 => (d1, 0))
  | .pop_front =>
    let r := d.pop_front
    some (r.2, if r.1.isSome then 1 else 0)
  | .pop_back =>
    let r := d.pop_back
    some (r.2, if r.1.isSome then 1 else 0)

/-- Run a sequence of operations, accumulating the number of pops that
returned a value; `none` as soon as one operation aborts. -/
def run_ops (d : StackDequeue T N) : List (DequeOp T) → Option (StackDequeue T N × Nat)
  | [] => some (d, 0)
  | op :: ops =>
    match d.run_op op with
    | none => none
    | some (d1, c) => (run_ops d1 ops).map (fun p => (p.1, c + p.2))

end StackDequeue

/-- State of `StackVec<T, N>` (src/stack_vec.rs lines 7-10). -/
structure StackVec (T : Type) (N : Nat) where
  data : Nat → Option T
  size : Nat

namespace StackVec

variable {T : Type} {N : Nat}

/-- `StackVec::new` — empty vector, all slots uninitialized. -/
def new : StackVec T N :=
  { data := fun _ => none, size := 0 }

/-- `StackVec::push` (lines 26-30): `assert!(size < N)`, write `data[size]`,
increment `size`; a failed assert aborts before any mutation. -/
def push (v : StackVec T N) (x : T) : Option (StackVec T N) :=
  if v.size < N then
    some { data := fun j => if j = v.size then some x else v.data j,
           size := v.size + 1 }
  else none

/-- `StackVec::push_unchecked` (lines 32-36): `debug_assert!(size < N)`
panics in debug builds, and in release builds the array indexing
`self.data[self.size]` bounds-checks `size < N` and panics before the write;
either way, with `size = N` the call aborts with no mutation, under exactly
the same condition as `push`. -/
def push_unchecked (v : StackVec T N) (x : T) : Option (StackVec T N) :=
  if v.size < N then
    some { data := fun j => if j = v.size then some x else v.data j,
           size := v.size + 1 }
  else none

/-- `StackVec::pop` (lines 38-41): `checked_sub` fails on an empty vector
before any field is written; otherwise decrement and read `data[new size]`. -/
def pop (v : StackVec T N) : Option (Option T) × StackVec T N :=
  if v.size = 0 then (none, v)
  else (some (v.data (v.size - 1)), { v with size := v.size - 1 })

/-- State of the consuming iterator `stack_vec::IntoIter` (lines 87-90). -/
structure IntoIterState (T : Type) (N : Nat) where
  index : Nat
  vec : StackVec T N

/-- `StackVec::into_iter` (lines 79-84): wraps the vector with position 0. -/
def into_iter (v : StackVec T N) : IntoIterState T N :=
  { index := 0, vec := v }

/-- `IntoIter::next` (lines 105-111): while `index < size`, read `data[index]`
and advance. -/
def IntoIterState.next (it : IntoIterState T N) : Option (Option T) × IntoIterState T N :=
  if it.index < it.vec.size then
    (some (it.vec.data it.index), { it with index := it.index + 1 })
  else (none, it)

/-- `Drop for IntoIter` (lines 92-99): the upper bound of the cleanup loop is
`self.vec.data.len()` — the CAPACITY `N`, not the vector's `size` — so the
destructor calls `assume_init_drop` on every slot in `data[index .. N]`.
Returned is the list of slot contents the destructor touches; a `none` entry
is a drop of an uninitialized slot. -/
def IntoIterState.drop_touched (it : IntoIterState T N) : List (Option T) :=
  (List.range (N - it.index)).map (fun i => it.vec.data (it.index + i))

end StackVec

/-! Helper lemmas shared by the claim theorems. -/

namespace StackDequeue

variable {T : Type} {N : Nat}

/-- Structural invariant of a deque state: the size never exceeds the
capacity, and the start index stays inside the storage (it stays 0 when the
capacity is 0). -/
def Inv (d : StackDequeue T N) : Prop :=
  d.size ≤ N ∧ d.start < max N 1

theorem inv_new : Inv (new : StackDequeue T N) := by
  constructor
  · simp [new]
  · simp [new]

theorem run_op_spec (d : StackDequeue T N) (op : DequeOp T)
    (p : StackDequeue T N × Nat) (h : d.run_op op = some p) (hInv : Inv d) :
    Inv p.1 ∧ p.1.size + p.2 = d.size + (if op.is_push then 1 else 0) := by
  obtain ⟨hsize, hstart⟩ := hInv
  obtain ⟨d1, c⟩ := p
  cases op with
  | push_back v =>
    by_cases hlt : d.size < N
    · simp only [run_op, push_back, if_pos hlt, Option.map, Option.some.injEq] at h
      obtain ⟨h1, h2⟩ := Prod.mk.injEq .. ▸ h
      subst h1
      subst h2
      refine ⟨⟨?_, ?_⟩, ?_⟩ <;> simp [Inv, DequeOp.is_push] <;> omega
    · simp [run_op, push_back, if_neg hlt] at h
  | push_front v =>
    by_cases hlt : d.size < N
    · simp only [run_op, push_front, if_pos hlt, Option.map, Option.some.injEq] at h
      obtain ⟨h1, h2⟩ := Prod.mk.injEq .. ▸ h
      subst h1
      subst h2
      refine ⟨⟨?_, ?_⟩, ?_⟩
      · simp only
        omega
      · simp only
        split <;> omega
      · simp [DequeOp.is_push]
    · simp [run_op, push_front, if_neg hlt] at h
  | pop_front =>
    by_cases hz : d.size = 0
    · simp only [run_op, pop_front, if_pos hz, Option.some.injEq] at h
      obtain ⟨h1, h2⟩ := Prod.mk.injEq .. ▸ h
      subst h1
      subst h2
      refine ⟨⟨hsize, hstart⟩, by simp [hz, DequeOp.is_push]⟩
    · simp only [run_op, pop_front, if_neg hz, Option.some.injEq] at h
      obtain ⟨h1, h2⟩ := Prod.mk.injEq .. ▸ h
      subst h1
      subst h2
      refine ⟨⟨?_, ?_⟩, ?_⟩
      · simp only
        omega
      · simp only [get_idx]
        split <;> omega
      · simp [DequeOp.is_push]
        omega
  | pop_back =>
    by_cases hz : d.size = 0
    · simp only [run_op, pop_back, if_pos hz, Option.some.injEq] at h
      obtain ⟨h1, h2⟩ := Prod.mk.injEq .. ▸ h
      subst h1
      subst h2
      refine ⟨⟨hsize, hstart⟩, by simp [hz, DequeOp.is_push]⟩
    · simp only [run_op, pop_back, if_neg hz, Option.some.injEq] at h
      obtain ⟨h1, h2⟩ := Prod.mk.injEq .. ▸ h
      subst h1
      subst h2
      refine ⟨⟨?_, hstart⟩, ?_⟩
      · simp only
        omega
      · simp [DequeOp.is_push]
        omega

theorem run_ops_spec (ops : List (DequeOp T)) :
    ∀ (d : StackDequeue T N), Inv d → ∀ p, d.run_ops ops = some p →
      Inv p.1 ∧ p.1.size + p.2 = d.size + push_count ops := by
  induction ops with
  | nil =>
    intro d hInv p h
    simp only [run_ops, Option.some.injEq] at h
    subst h
    simpa [push_count] using hInv
  | cons op ops ih =>
    intro d hInv p h
    simp only [run_ops] at h
    cases heq : d.run_op op with
    | none =>
      rw [heq] at h
      exact absurd h (by simp)
    | some q =>
      obtain ⟨d1, c⟩ := q
      rw [heq] at h
      simp only at h
      cases hrec : d1.run_ops ops with
      | none =>
        rw [hrec] at h
        exact absurd h (by simp)
      | some r =>
        rw [hrec] at h
        simp only [Option.map, Option.some.injEq] at h
        subst h
        obtain ⟨hq, haccq⟩ := run_op_spec d op (d1, c) heq hInv
        obtain ⟨hr, haccr⟩ := ih d1 hq r hrec
        refine ⟨hr, ?_⟩
        simp only [push_count, List.countP_cons] at haccq haccr ⊢
        split at haccq <;> simp_all <;> omega

theorem as_slices_length (d : StackDequeue T N) :
    d.as_slices.1.length + d.as_slices.2.length = d.size := by
  simp only [as_slices, slice_read, List.length_map, List.length_range]
  omega

end StackDequeue

/-! Claim theorems. -/

/-- C1: the claim states that `get(i)`/`get_mut(i)` return logical element i,
the element at physical slot `(start + i) mod N`, independently of `start`.
The code reads physical slot `i` directly.  Failing input: on a
`StackDequeue<u32, 2>`, `push_back(1); push_back(2); pop_front()` leaves
`start = 1`, `size = 1` with logical content `[2]`; `get(0)` and `get_mut(0)`
return the stale, already-popped value `1` from slot 0 instead of the logical
front element `2` at slot `(start + 0) mod N = 1`. -/
theorem c1_get_reads_wrong_slot_after_wrap :
    (StackDequeue.run_ops (StackDequeue.new : StackDequeue Nat 2)
        [DequeOp.push_back 1, DequeOp.push_back 2, DequeOp.pop_front]).map
      (fun p => (p.1.get 0, p.1.get_mut 0, p.1.logical_list, p.1.start, p.1.size))
      = some (some 1, some 1, [some 2], 1, 1) := by
  decide

/-- C2: the claim states that `push_front(v)` writes v into the slot at the
NEW start `(start + N - 1) mod N`.  The code writes at the OLD start.
Failing input: on a `StackDequeue<u32, 2>`, `push_front(1)` leaves the value
in slot 0 (the old start) while the new `start = 1` points at an
uninitialized slot, so the logical front is uninitialized; after
`push_front(1); push_front(2)` — the doc-test at src/stack_dequeue.rs lines
172-177 — `front()` yields `1`, though that doc-test asserts `Some(&2)`. -/
theorem c2_push_front_writes_old_start :
    ((StackDequeue.run_ops (StackDequeue.new : StackDequeue Nat 2)
        [DequeOp.push_front 1]).map
      (fun p => (p.1.data 0, p.1.data 1, p.1.start, p.1.logical_list))
      = some (some 1, none, 1, [none]))
    ∧ ((StackDequeue.run_ops (StackDequeue.new : StackDequeue Nat 2)
        [DequeOp.push_front 1, DequeOp.push_front 2]).map
      (fun p => (p.1.front, p.1.data 0, p.1.data 1, p.1.start, p.1.size))
      = some (some 1, some 1, some 2, 0, 2)) := by
  constructor <;> decide

/-- C3: the claim states that run B of `as_slices()` is
`storage[0 .. size - len(run A)]` and that the concatenation of the two runs
is the logical front-to-back sequence.  The code starts run B at
`get_idx(start + len1)`, which adds `start` twice.  Failing input: on a
`StackDequeue<u32, 5>`, `push_back` 1..5, three `pop_front`s, then
`push_back 6; push_back 7` reach `start = 3`, `size = 4` with logical
content `[4, 5, 6, 7]`; `as_slices` returns `([4, 5], [4, 5])` — run B
re-reads slots 3 and 4 — whose concatenation `[4, 5, 4, 5]` is not the
logical sequence, while the claimed run B `storage[0..2]` is `[6, 7]`. -/
theorem c3_as_slices_run_b_wrong_position :
    (StackDequeue.run_ops (StackDequeue.new : StackDequeue Nat 5)
        [DequeOp.push_back 1, DequeOp.push_back 2, DequeOp.push_back 3,
         DequeOp.push_back 4, DequeOp.push_back 5, DequeOp.pop_front,
         DequeOp.pop_front, DequeOp.pop_front, DequeOp.push_back 6,
         DequeOp.push_back 7]).map
      (fun p => (p.1.as_slices, p.1.logical_list, p.1.slice_read 0 2,
                 p.1.start, p.1.size))
      = some (([some 4, some 5], [some 4, some 5]),
              [some 4, some 5, some 6, some 7], [some 6, some 7], 3, 4) := by
  decide

/-- C4: the claim states that a deque logically holding `[0, 1, 2]` with
`start ≠ 0` compares equal to the plain sequence `[0, 1, 2]` — the wrap
state must not be observable through equality.  Failing input: on a
`StackDequeue<u32, 3>`, `push_back 9; push_back 0; push_back 1; pop_front;
push_back 2` reach `start = 1` with logical content `[0, 1, 2]`, yet the
equality (which splits the right-hand side via the mispositioned run B of
`as_slices`) returns `false`. -/
theorem c4_eq_observes_wrap_state :
    (StackDequeue.run_ops (StackDequeue.new : StackDequeue Nat 3)
        [DequeOp.push_back 9, DequeOp.push_back 0, DequeOp.push_back 1,
         DequeOp.pop_front, DequeOp.push_back 2]).map
      (fun p => (p.1.eq_seq [0, 1, 2], p.1.logical_list, p.1.start))
      = some (false, [some 0, some 1, some 2], 1) := by
  decide

/-- C5: the claim states that destroying a `StackDequeue` runs element
cleanup for exactly the `size` valid elements.  The source has no `Drop`
impl for `StackDequeue`, and the drop glue of `[MaybeUninit<T>; N]` runs no
element destructors, so destruction releases zero elements.  Failing input:
a `StackDequeue<T, 2>` holding one element (`push_back(7)`): its destructor
releases `[]` although `size = 1` and the logical content is `[7]` — the
element leaks. -/
theorem c5_drop_releases_nothing :
    (StackDequeue.run_ops (StackDequeue.new : StackDequeue Nat 2)
        [DequeOp.push_back 7]).map
      (fun p => (p.1.dropped_elements, p.1.size, p.1.logical_list))
      = some ([], 1, [some 7]) := by
  decide

/-- C6: the claim states that dropping an abandoned `StackVec` consuming
iterator releases exactly the unconsumed valid elements `[index, size)` and
touches no uninitialized slot.  The destructor's loop bound is
`data.len() = N`, so it drops `data[index .. N]`.  Failing input: a
`StackVec<u32, 3>` with two pushed elements, `into_iter`, one `next()`
(consuming `10`), then drop: the destructor touches `[some 20, none]` —
slot 1 (the remaining element `20`) and slot 2, which is uninitialized and
lies at or beyond `size = 2`. -/
theorem c6_into_iter_drop_touches_uninit :
    ((((StackVec.new : StackVec Nat 3).push 10).bind (fun v => v.push 20)).map
      (fun v =>
        (let s := (v.into_iter).next
         (s.1, s.2.drop_touched, v.size))))
      = some (some (some 10), [some 20, none], 2) := by
  decide

/-- C7: pushing at capacity (`size = N`) fails the leading `assert!` of
`push_back_mut`/`push_front_mut` (which `push_back`/`push_front` call) and of
`StackVec::push`; the operation aborts before any field is written — no
recovery, no silent truncation, no corrupted state (no successor state
exists). -/
theorem c7_push_at_capacity_aborts {T : Type} {N : Nat}
    (d : StackDequeue T N) (sv : StackVec T N) (v x : T)
    (hd : d.size = N) (hv : sv.size = N) :
    d.push_back v = none ∧ d.push_front v = none ∧ sv.push x = none := by
  refine ⟨?_, ?_, ?_⟩ <;>
    simp [StackDequeue.push_back, StackDequeue.push_front, StackVec.push, hd, hv]

/-- Witness for C7 at a full `StackDequeue Nat 1` and a full `StackVec Nat 1`. -/
theorem c7_witness :
    (⟨fun _ => some 3, 0, 1⟩ : StackDequeue Nat 1).size = 1
    ∧ (⟨fun _ => some 4, 1⟩ : StackVec Nat 1).size = 1
    ∧ (StackDequeue.push_back (⟨fun _ => some 3, 0, 1⟩ : StackDequeue Nat 1) 5 = none
       ∧ StackDequeue.push_front (⟨fun _ => some 3, 0, 1⟩ : StackDequeue Nat 1) 5 = none
       ∧ StackVec.push (⟨fun _ => some 4, 1⟩ : StackVec Nat 1) 6 = none) :=
  ⟨rfl, rfl,
   c7_push_at_capacity_aborts (⟨fun _ => some 3, 0, 1⟩ : StackDequeue Nat 1)
     (⟨fun _ => some 4, 1⟩ : StackVec Nat 1) 5 6 rfl rfl⟩

/-- C8: accessing an empty container (or an index at or beyond `size`) never
aborts: `pop_front`, `pop_back`, `front`, `back` on an empty deque of any
capacity and `pop` on an empty `StackVec` return `None` and leave the state
unchanged, and `get i` returns `None` on any deque whenever `size ≤ i`. -/
theorem c8_empty_access_returns_none {T : Type} {N : Nat}
    (d d2 : StackDequeue T N) (sv : StackVec T N) (i : Nat)
    (hd : d.size = 0) (hv : sv.size = 0) (hi : d2.size ≤ i) :
    d.pop_front = (none, d) ∧ d.pop_back = (none, d)
    ∧ d.front = none ∧ d.back = none
    ∧ d2.get i = none ∧ sv.pop = (none, sv) := by
  have hi2 : ¬ i < d2.size := by omega
  refine ⟨?_, ?_, ?_, ?_, ?_, ?_⟩
  · simp [StackDequeue.pop_front, hd]
  · simp [StackDequeue.pop_back, hd]
  · simp [StackDequeue.front, StackDequeue.get, hd]
  · simp [StackDequeue.back, StackDequeue.get, hd]
  · simp [StackDequeue.get, hi2]
  · simp [StackVec.pop, hv]

/-- Witness for C8 at the empty `StackDequeue Nat 2`, the empty
`StackVec Nat 2` and index 5. -/
theorem c8_witness :
    (StackDequeue.new : StackDequeue Nat 2).size = 0
    ∧ (StackVec.new : StackVec Nat 2).size = 0
    ∧ (StackDequeue.new : StackDequeue Nat 2).size ≤ 5
    ∧ ((StackDequeue.new : StackDequeue Nat 2).pop_front = (none, StackDequeue.new)
       ∧ (StackDequeue.new : StackDequeue Nat 2).pop_back = (none, StackDequeue.new)
       ∧ (StackDequeue.new : StackDequeue Nat 2).front = none
       ∧ (StackDequeue.new : StackDequeue Nat 2).back = none
       ∧ (StackDequeue.new : StackDequeue Nat 2).get 5 = none
       ∧ (StackVec.new : StackVec Nat 2).pop = (none, StackVec.new)) :=
  ⟨rfl, rfl, by decide,
   c8_empty_access_returns_none StackDequeue.new StackDequeue.new StackVec.new 5
     rfl rfl (by decide)⟩

/-- C9 counterexample: the claim computes the final size as
(pushes − pops) clamped at 0 over any capacity-respecting sequence.  On a
`StackDequeue<u32, 2>`, the sequence `pop_front; push_back 5` (one push, one
pop, all pushes within capacity) ends with `size = 1`, while the claimed
formula gives `max (1 - 1) 0 = 0`. -/
theorem c9_clamped_count_counterexample :
    ((StackDequeue.run_ops (StackDequeue.new : StackDequeue Nat 2)
        [DequeOp.pop_front, DequeOp.push_back 5]).map (fun p => (p.1.size, p.2))
      = some (1, 0))
    ∧ push_count [DequeOp.pop_front, DequeOp.push_back (5 : Nat)] = 1
    ∧ pop_op_count [DequeOp.pop_front, DequeOp.push_back (5 : Nat)] = 1
    ∧ (1 : Nat) ≠ max (1 - 1) 0 := by
  refine ⟨?_, ?_, ?_, ?_⟩ <;> decide

/-- C9 (amended): for every sequence of operations on an initially empty
`StackDequeue<T, N>` in which every push occurs with `size < N` (the run
aborts otherwise), the final size plus the number of pops that returned an
element equals the number of pushes — a pop on an empty deque returns `None`
and changes nothing, so it does not count; the final size also equals the
number of elements produced by a full front-to-back traversal (the total
length of the two `as_slices` runs, which the iterators walk); and after the
sequence `size ≤ N` and `start < N` hold (`start` stays 0 when `N = 0`, so
`start < max N 1`). -/
theorem c9_size_accounting_and_invariants {T : Type} {N : Nat}
    (ops : List (DequeOp T)) :
    match (StackDequeue.new : StackDequeue T N).run_ops ops with
    | none => True
    | some p =>
      p.1.size + p.2 = push_count ops
      ∧ p.1.as_slices.1.length + p.1.as_slices.2.length = p.1.size
      ∧ p.1.size ≤ N ∧ p.1.start < max N 1 := by
  cases h : (StackDequeue.new : StackDequeue T N).run_ops ops with
  | none => trivial
  | some p =>
    obtain ⟨⟨h1, h2⟩, hacc⟩ :=
      StackDequeue.run_ops_spec ops StackDequeue.new StackDequeue.inv_new p h
    refine ⟨?_, StackDequeue.as_slices_length p.1, h1, h2⟩
    simpa [StackDequeue.new] using hacc

/-- Witness for the amended C9 on the concrete sequence
`push_back 7; push_back 8; pop_front` over `StackDequeue Nat 2`. -/
theorem c9_witness :
    match (StackDequeue.new : StackDequeue Nat 2).run_ops
        [DequeOp.push_back 7, DequeOp.push_back 8, DequeOp.pop_front] with
    | none => True
    | some p =>
      p.1.size + p.2 = push_count [DequeOp.push_back 7, DequeOp.push_back 8,
                                   DequeOp.pop_front]
      ∧ p.1.as_slices.1.length + p.1.as_slices.2.length = p.1.size
      ∧ p.1.size ≤ 2 ∧ p.1.start < max 2 1 :=
  @c9_size_accounting_and_invariants Nat 2
    [DequeOp.push_back 7, DequeOp.push_back 8, DequeOp.pop_front]

/-- C10: `StackVec::push_unchecked` with `size = N` aborts under the same
condition in both build modes — the `debug_assert!` in debug builds, and in
release builds the bounds check of the array indexing `data[size]`, which
panics before the write and before `size` changes — so the call never writes
outside the `N`-slot storage, never leaves `size > N`, and the vector is
unchanged by the failed call (no successor state exists). -/
theorem c10_push_unchecked_at_capacity {T : Type} {N : Nat}
    (v : StackVec T N) (x : T) (h : v.size = N) :
    v.push_unchecked x = none := by
  simp [StackVec.push_unchecked, h]

/-- Witness for C10 at a full `StackVec Nat 1`. -/
theorem c10_witness :
    (⟨fun _ => some 1, 1⟩ : StackVec Nat 1).size = 1
    ∧ StackVec.push_unchecked (⟨fun _ => some 1, 1⟩ : StackVec Nat 1) 9 = none :=
  ⟨rfl, c10_push_unchecked_at_capacity (⟨fun _ => some 1, 1⟩ : StackVec Nat 1) 9 rfl⟩
